import Mathlib

/-!
Verification of the credential/session subsystem of the backend
(`src/main.py`, `src/schemas.py`).

Python strings are embedded as `List Char`; bytes as `List Nat` (each
element a byte value).  The key-derivation primitive
`hashlib.pbkdf2_hmac('sha256', password, salt, 100_000)` is an external
library routine: it is embedded as an opaque parameter
`pbkdf2 : List Char → List Char → List Nat` standing for the derived
bytes computed from the UTF-8 encodings of password and salt; every
theorem holds for an arbitrary such function.  Randomness
(`secrets.token_hex(16)`, `secrets.token_urlsafe(32)`) is embedded by
passing the underlying random bytes explicitly.
`secrets.compare_digest` is a constant-time string comparison; its
result is modelled as plain equality.
-/

/-- The opaque PBKDF2-HMAC-SHA256 (100 000 iterations) derivation:
from (password, salt) to derived bytes. -/
abbrev Pbkdf2 : Type := List Char → List Char → List Nat

/-- Lowercase hexadecimal digit table, as produced by Python `bytes.hex`
and `secrets.token_hex`. -/
def hexAlphabet : List Char := "0123456789abcdef".toList

/-- The hex digit for a nibble value. -/
def hexDigitChar (n : Nat) : Char := hexAlphabet.getD n '0'

/-- Hex encoding of one byte: high nibble then low nibble
(Python `bytes.hex` per byte). -/
def byteToHex (b : Nat) : List Char := [hexDigitChar (b / 16 % 16), hexDigitChar (b % 16)]

/-- Hex encoding of a byte sequence (Python `bytes.hex`). -/
def bytesToHex : List Nat → List Char
  | [] => []
  | b :: rest => byteToHex b ++ bytesToHex rest

/-- A character is a lowercase hexadecimal digit. -/
def isHexChar (c : Char) : Bool := ('0' ≤ c && c ≤ '9') || ('a' ≤ c && c ≤ 'f')

/-- Python `str.split(sep)` for a one-character separator: splits on every
occurrence, keeping empty fields. -/
def splitOn (sep : Char) : List Char → List (List Char)
  | [] => [[]]
  | c :: rest =>
    if c = sep then [] :: splitOn sep rest
    else
      match splitOn sep rest with
      | [] => [[c]]
      | h :: t => (c :: h) :: t

/-- Embedding of `hash_password(password, salt=None)` (src/main.py lines
28-34).  `saltBytes` are the 16 random bytes that
`secrets.token_hex(16)` would hex-encode when `salt` is `None`. -/
def hash_password (pbkdf2 : Pbkdf2) (saltBytes : List Nat)
    (password : List Char) (salt : Option (List Char)) : List Char :=
  let s := salt.getD (bytesToHex saltBytes)
  s ++ '$' :: bytesToHex (pbkdf2 password s)

/-- Embedding of `verify_password(password, stored)` (src/main.py lines
36-42).  `stored.split('$')` unpacks into exactly two names or raises
`ValueError`, which the code turns into `False`; the final
`secrets.compare_digest` is modelled as equality of the two hex strings. -/
def verify_password (pbkdf2 : Pbkdf2) (password stored : List Char) : Bool :=
  match splitOn '$' stored with
  | [salt, pwd_hash] => decide (bytesToHex (pbkdf2 password salt) = pwd_hash)
  | _ => false

/-- The URL-safe base64 alphabet used by `base64.urlsafe_b64encode`. -/
def b64Alphabet : List Char :=
  "ABCDEFGHIJKLMNOPQRSTUVWXYZabcdefghijklmnopqrstuvwxyz0123456789-_".toList

/-- The URL-safe base64 character for a 6-bit value. -/
def b64urlChar (n : Nat) : Char := b64Alphabet.getD n 'A'

/-- URL-safe base64 encoding without padding: three bytes become four
characters; a final group of one or two bytes becomes two or three
characters and the `=` padding is stripped (as `secrets.token_urlsafe`
does). -/
def base64urlNoPad : List Nat → List Char
  | [] => []
  | [b1] => [b64urlChar (b1 / 4 % 64), b64urlChar (b1 % 4 * 16)]
  | [b1, b2] =>
      [b64urlChar (b1 / 4 % 64), b64urlChar (b1 % 4 * 16 + b2 / 16 % 16),
       b64urlChar (b2 % 16 * 4)]
  | b1 :: b2 :: b3 :: rest =>
      b64urlChar (b1 / 4 % 64) :: b64urlChar (b1 % 4 * 16 + b2 / 16 % 16) ::
      b64urlChar (b2 % 16 * 4 + b3 / 64 % 4) :: b64urlChar (b3 % 64) ::
      base64urlNoPad rest

/-- Embedding of `secrets.token_urlsafe` applied to the given random
bytes (the code calls it with 32 bytes of randomness). -/
def token_urlsafe (randomBytes : List Nat) : List Char := base64urlNoPad randomBytes

/-- A character is URL-safe: alphanumeric, `-` or `_`. -/
def isUrlSafeChar (c : Char) : Bool :=
  ('A' ≤ c && c ≤ 'Z') || ('a' ≤ c && c ≤ 'z') || ('0' ≤ c && c ≤ '9') || c = '-' || c = '_'

/-- A document in the `user` collection.  Fields other than `_id` are
optional because documents are schemaless (login reads them with
`.get(..., default)`); `session_tokens` is the array `$push` maintains,
with an absent field behaving as the empty array. -/
structure UserDoc where
  _id : Nat
  name : Option (List Char)
  email : Option (List Char)
  password_hash : Option (List Char)
  session_tokens : List (List Char)
  created_at : Option Nat
deriving DecidableEq, Repr

/-- The `user` collection together with the id the store will assign to
the next inserted document.  Modelled from the spec: the Account Store
collaborator (`database.py` is not in the sources); ids are
store-generated. -/
structure DB where
  users : List UserDoc
  nextId : Nat
deriving DecidableEq, Repr

/-- Modelled from the spec: `find_by_email(email) -> Account | not found`
(`db["user"].find_one({"email": email})` returns the first matching
document or `None`). -/
def find_by_email (users : List UserDoc) (email : List Char) : Option UserDoc :=
  users.find? (fun u => decide (u.email = some email))

/-- Modelled from the spec: lookup by id
(`db["user"].find_one({"_id": i})`). -/
def find_by_id (users : List UserDoc) (i : Nat) : Option UserDoc :=
  users.find? (fun u => decide (u._id = i))

/-- Modelled from the spec: `insert(Account) -> generated_id`
(`create_document("user", doc)` from the missing `database.py`): the
document built from `UserSchema(name, email, password_hash)` is
persisted with a fresh store-generated id and a server-assigned
creation timestamp `now`; it has no `session_tokens` entry yet,
i.e. the empty token list. -/
def create_document (db : DB) (now : Nat)
    (name email password_hash : List Char) : Nat × DB :=
  (db.nextId,
   ⟨db.users ++ [⟨db.nextId, some name, some email, some password_hash, [], some now⟩],
    db.nextId + 1⟩)

/-- Modelled from the spec: `append_token(id, token)`
(`update_one({"_id": i}, {"$push": {"session_tokens": token}})`):
appends the token to the session-token array of the first document with
the given id; a no-op when no document matches. -/
def pushToken (users : List UserDoc) (i : Nat) (tok : List Char) : List UserDoc :=
  match users with
  | [] => []
  | u :: rest =>
    if u._id = i then { u with session_tokens := u.session_tokens ++ [tok] } :: rest
    else u :: pushToken rest i tok

/-- The errors the auth endpoints raise (`HTTPException`), plus the
`TypeError` Python would raise on subscripting `None` in the register
token-attach chain. -/
inductive ApiError where
  | duplicateEmail
  | invalidCredentials
  | noneTypeError
deriving DecidableEq, Repr

/-- The HTTP status code of each `HTTPException` in src/main.py. -/
def ApiError.status : ApiError → Nat
  | .duplicateEmail => 400
  | .invalidCredentials => 401
  | .noneTypeError => 500

/-- The `detail` message of each `HTTPException` in src/main.py. -/
def ApiError.message : ApiError → List Char
  | .duplicateEmail => "Email already registered".toList
  | .invalidCredentials => "Invalid credentials".toList
  | .noneTypeError => []

/-- The `AuthResponse` model returned by both auth endpoints. -/
structure AuthResponse where
  token : List Char
  name : List Char
  email : List Char
deriving DecidableEq, Repr

/-- Embedding of `register` (src/main.py lines 119-132).  `saltBytes`
are the random bytes behind `secrets.token_hex(16)`, `tokenBytes` the
random bytes behind `secrets.token_urlsafe(32)`, `now` the server
clock.  Line 131 attaches the token through the re-query chain
`find_one({"email": ...})["_id"]` / `find_one({"_id": ...})["_id"]`
rather than through `user_id`; a `None` from either `find_one` would
make the subscript raise, embedded as `ApiError.noneTypeError`. -/
def register (pbkdf2 : Pbkdf2) (saltBytes tokenBytes : List Nat) (now : Nat)
    (db : DB) (name email password : List Char) : Except ApiError AuthResponse × DB :=
  match find_by_email db.users email with
  | some _ => (.error .duplicateEmail, db)
  | none =>
    let password_hash := hash_password pbkdf2 saltBytes password none
    let created := create_document db now name email password_hash
    let db1 := created.2
    let token := token_urlsafe tokenBytes
    match find_by_email db1.users email with
    | none => (.error .noneTypeError, db1)
    | some u1 =>
      match find_by_id db1.users u1._id with
      | none => (.error .noneTypeError, db1)
      | some u2 =>
        (.ok ⟨token, name, email⟩, ⟨pushToken db1.users u2._id token, db1.nextId⟩)

/-- Modelled from the spec: Register step 4 attaches the token to the
newly created Account using the id returned from the creation step
(`user_id`), instead of the re-query chain of line 131. -/
def register_spec (pbkdf2 : Pbkdf2) (saltBytes tokenBytes : List Nat) (now : Nat)
    (db : DB) (name email password : List Char) : Except ApiError AuthResponse × DB :=
  match find_by_email db.users email with
  | some _ => (.error .duplicateEmail, db)
  | none =>
    let password_hash := hash_password pbkdf2 saltBytes password none
    let created := create_document db now name email password_hash
    let user_id := created.1
    let db1 := created.2
    let token := token_urlsafe tokenBytes
    (.ok ⟨token, name, email⟩, ⟨pushToken db1.users user_id token, db1.nextId⟩)

/-- Embedding of `login` (src/main.py lines 134-143).  `tokenBytes` are
the random bytes behind `secrets.token_urlsafe(32)`.  A document
without a `password_hash` field is read as `""`
(`user.get("password_hash", "")`), and the response name/email default
likewise. -/
def login (pbkdf2 : Pbkdf2) (tokenBytes : List Nat)
    (db : DB) (email password : List Char) : Except ApiError AuthResponse × DB :=
  match find_by_email db.users email with
  | none => (.error .invalidCredentials, db)
  | some user =>
    if verify_password pbkdf2 password (user.password_hash.getD []) then
      let token := token_urlsafe tokenBytes
      (.ok ⟨token, user.name.getD [], user.email.getD []⟩,
       ⟨pushToken db.users user._id token, db.nextId⟩)
    else
      (.error .invalidCredentials, db)

-- Helper lemmas ------------------------------------------------------------

lemma all_getD (p : Char → Bool) (d : Char) :
    ∀ (l : List Char) (n : Nat), l.all p = true → p d = true → p (l.getD n d) = true := by
  intro l
  induction l with
  | nil => intro n _ hd; simpa [List.getD] using hd
  | cons c rest ih =>
    intro n hall hd
    simp only [List.all_cons, Bool.and_eq_true] at hall
    rcases n with _ | m
    · simpa using hall.1
    · exact ih m hall.2 hd

lemma isHexChar_hexDigitChar (n : Nat) : isHexChar (hexDigitChar n) = true := by
  refine all_getD isHexChar '0' hexAlphabet n ?_ ?_ <;> decide

lemma isHexChar_ne_dollar {c : Char} (h : isHexChar c = true) : c ≠ '$' := by
  intro heq
  rw [heq] at h
  exact absurd h (by decide)

lemma bytesToHex_all_hex (bs : List Nat) : ∀ c ∈ bytesToHex bs, isHexChar c = true := by
  induction bs with
  | nil => intro c hc; simp [bytesToHex] at hc
  | cons b rest ih =>
    intro c hc
    simp only [bytesToHex, byteToHex, List.cons_append, List.nil_append, List.mem_cons] at hc
    rcases hc with h | h | h
    · rw [h]; exact isHexChar_hexDigitChar _
    · rw [h]; exact isHexChar_hexDigitChar _
    · exact ih c h

lemma bytesToHex_length (bs : List Nat) : (bytesToHex bs).length = 2 * bs.length := by
  induction bs with
  | nil => rfl
  | cons b rest ih => simp [bytesToHex, byteToHex, ih]; ring

lemma splitOn_ne_nil (sep : Char) (l : List Char) : splitOn sep l ≠ [] := by
  induction l with
  | nil => simp [splitOn]
  | cons c rest ih =>
    by_cases h : c = sep
    · simp [splitOn, h]
    · simp only [splitOn, if_neg h]
      cases hr : splitOn sep rest with
      | nil => simp
      | cons a t => simp

lemma splitOn_no_sep (sep : Char) (l : List Char) (h : ∀ c ∈ l, c ≠ sep) :
    splitOn sep l = [l] := by
  induction l with
  | nil => rfl
  | cons c rest ih =>
    have hc : c ≠ sep := h c (List.mem_cons_self c rest)
    have hrest : splitOn sep rest = [rest] := ih (fun x hx => h x (List.mem_cons_of_mem c hx))
    simp [splitOn, if_neg hc, hrest]

lemma splitOn_append (sep : Char) (a b : List Char) (ha : ∀ c ∈ a, c ≠ sep) :
    splitOn sep (a ++ sep :: b) = a :: splitOn sep b := by
  induction a with
  | nil => simp [splitOn]
  | cons c a' ih =>
    have hc : c ≠ sep := ha c (List.mem_cons_self c a')
    have h' : splitOn sep (a' ++ sep :: b) = a' :: splitOn sep b :=
      ih (fun x hx => ha x (List.mem_cons_of_mem c hx))
    simp [splitOn, if_neg hc, h']

lemma splitOn_length (sep : Char) (l : List Char) :
    (splitOn sep l).length = l.count sep + 1 := by
  induction l with
  | nil => rfl
  | cons c rest ih =>
    by_cases h : c = sep
    · subst h
      simp [splitOn, List.count_cons, ih]
    · simp only [splitOn, if_neg h]
      cases hr : splitOn sep rest with
      | nil => exact absurd hr (splitOn_ne_nil sep rest)
      | cons x t =>
        have : (x :: t).length = rest.count sep + 1 := hr ▸ ih
        simp only [List.length_cons] at this ⊢
        have hcount : (c :: rest).count sep = rest.count sep := by
          simp [List.count_cons, h]
        omega

lemma isUrlSafeChar_b64urlChar (n : Nat) : isUrlSafeChar (b64urlChar n) = true := by
  refine all_getD isUrlSafeChar 'A' b64Alphabet n ?_ ?_ <;> decide

lemma base64urlNoPad_all_urlsafe (bs : List Nat) :
    ∀ c ∈ base64urlNoPad bs, isUrlSafeChar c = true := by
  induction bs using base64urlNoPad.induct with
  | case1 => intro c hc; simp [base64urlNoPad] at hc
  | case2 b1 =>
    intro c hc
    simp only [base64urlNoPad, List.mem_cons, List.not_mem_nil, or_false] at hc
    rcases hc with h | h <;> (rw [h]; exact isUrlSafeChar_b64urlChar _)
  | case3 b1 b2 =>
    intro c hc
    simp only [base64urlNoPad, List.mem_cons, List.not_mem_nil, or_false] at hc
    rcases hc with h | h | h <;> (rw [h]; exact isUrlSafeChar_b64urlChar _)
  | case4 b1 b2 b3 rest ih =>
    intro c hc
    simp only [base64urlNoPad, List.mem_cons] at hc
    rcases hc with h | h | h | h | h
    · rw [h]; exact isUrlSafeChar_b64urlChar _
    · rw [h]; exact isUrlSafeChar_b64urlChar _
    · rw [h]; exact isUrlSafeChar_b64urlChar _
    · rw [h]; exact isUrlSafeChar_b64urlChar _
    · exact ih c h

lemma base64urlNoPad_length (bs : List Nat) :
    (base64urlNoPad bs).length =
      4 * (bs.length / 3) + (if bs.length % 3 = 0 then 0 else bs.length % 3 + 1) := by
  induction bs using base64urlNoPad.induct with
  | case1 => rfl
  | case2 b1 => simp [base64urlNoPad]
  | case3 b1 b2 => simp [base64urlNoPad]
  | case4 b1 b2 b3 rest ih =>
    simp only [base64urlNoPad, List.length_cons, ih]
    have h3 : (rest.length + 1 + 1 + 1) % 3 = rest.length % 3 := by omega
    have h4 : (rest.length + 1 + 1 + 1) / 3 = rest.length / 3 + 1 := by omega
    rw [h3, h4]
    omega

lemma verify_false_of_count_ne_one (pbkdf2 : Pbkdf2) (password stored : List Char)
    (h : stored.count '$' ≠ 1) : verify_password pbkdf2 password stored = false := by
  have hlen : (splitOn '$' stored).length = stored.count '$' + 1 := splitOn_length '$' stored
  unfold verify_password
  rcases hsp : splitOn '$' stored with _ | ⟨a, _ | ⟨b, _ | ⟨c, t⟩⟩⟩
  · exact absurd hsp (splitOn_ne_nil '$' stored)
  · rfl
  · rw [hsp] at hlen
    simp only [List.length_cons, List.length_nil] at hlen
    omega
  · rfl

lemma verify_hash_of_no_dollar (pbkdf2 : Pbkdf2) (password s : List Char)
    (hs : ∀ c ∈ s, c ≠ '$') :
    verify_password pbkdf2 password (s ++ '$' :: bytesToHex (pbkdf2 password s)) = true := by
  unfold verify_password
  rw [splitOn_append '$' s _ hs,
      splitOn_no_sep '$' _ (fun c hc => isHexChar_ne_dollar (bytesToHex_all_hex _ c hc))]
  simp

lemma bytesToHex_no_dollar (bs : List Nat) : ∀ c ∈ bytesToHex bs, c ≠ '$' :=
  fun c hc => isHexChar_ne_dollar (bytesToHex_all_hex bs c hc)

lemma find?_append_of_none {α : Type} (p : α → Bool) (l1 l2 : List α)
    (h : l1.find? p = none) : (l1 ++ l2).find? p = l2.find? p := by
  simp [List.find?_append, h]

lemma find_by_email_insert (users : List UserDoc) (email : List Char) (d : UserDoc)
    (hnone : find_by_email users email = none) (hd : d.email = some email) :
    find_by_email (users ++ [d]) email = some d := by
  unfold find_by_email at hnone ⊢
  rw [find?_append_of_none _ _ _ hnone]
  simp [List.find?_cons, hd]

lemma find_by_id_insert (users : List UserDoc) (i : Nat) (d : UserDoc)
    (hfresh : ∀ u ∈ users, u._id ≠ i) (hd : d._id = i) :
    find_by_id (users ++ [d]) i = some d := by
  unfold find_by_id
  have hnone : users.find? (fun u => decide (u._id = i)) = none :=
    List.find?_eq_none.mpr (fun u hu => by simpa using hfresh u hu)
  rw [find?_append_of_none _ _ _ hnone]
  simp [List.find?_cons, hd]

lemma pushToken_append_of_fresh (l1 l2 : List UserDoc) (i : Nat) (tok : List Char)
    (h : ∀ u ∈ l1, u._id ≠ i) :
    pushToken (l1 ++ l2) i tok = l1 ++ pushToken l2 i tok := by
  induction l1 with
  | nil => rfl
  | cons u t ih =>
    have hu : u._id ≠ i := h u (List.mem_cons_self u t)
    simp only [List.cons_append, pushToken, if_neg hu, List.append_eq]
    rw [ih (fun v hv => h v (List.mem_cons_of_mem u hv))]

-- Claim theorems ------------------------------------------------------------

/-- C1: for every password string and every salt string made of hex
characters (in particular the default randomly generated 32-hex-character
salt), verifying a password against the credential hash produced from
that same password succeeds. -/
theorem verify_hash_roundtrip (pbkdf2 : Pbkdf2) (saltBytes : List Nat)
    (password salt : List Char) (hsalt : ∀ c ∈ salt, isHexChar c = true) :
    verify_password pbkdf2 password
      (hash_password pbkdf2 saltBytes password (some salt)) = true ∧
    verify_password pbkdf2 password
      (hash_password pbkdf2 saltBytes password none) = true := by
  constructor
  · exact verify_hash_of_no_dollar pbkdf2 password salt
      (fun c hc => isHexChar_ne_dollar (hsalt c hc))
  · exact verify_hash_of_no_dollar pbkdf2 password (bytesToHex saltBytes)
      (bytesToHex_no_dollar saltBytes)

/-- Witness for C1 at a concrete password, hex salt and derivation
function. -/
theorem verify_hash_roundtrip_witness :
    verify_password (fun _ _ => [7, 200]) "secret123".toList
      (hash_password (fun _ _ => [7, 200]) [1, 2] "secret123".toList
        (some "0af3".toList)) = true :=
  (verify_hash_roundtrip (fun _ _ => [7, 200]) [1, 2] "secret123".toList
    "0af3".toList (by decide)).1

/-- C2: `hash_password` always succeeds and returns
`salt ++ "$" ++ hex(pbkdf2(password, salt))`; when no salt is supplied
the salt is the hex encoding of the 16 random bytes, which is 32 hex
characters long. -/
theorem hash_password_spec (pbkdf2 : Pbkdf2) (saltBytes : List Nat)
    (password salt : List Char) (h16 : saltBytes.length = 16) :
    hash_password pbkdf2 saltBytes password (some salt)
      = salt ++ '$' :: bytesToHex (pbkdf2 password salt) ∧
    hash_password pbkdf2 saltBytes password none
      = bytesToHex saltBytes ++ '$' :: bytesToHex (pbkdf2 password (bytesToHex saltBytes)) ∧
    (bytesToHex saltBytes).length = 32 ∧
    (∀ c ∈ bytesToHex saltBytes, isHexChar c = true) := by
  refine ⟨rfl, rfl, ?_, bytesToHex_all_hex saltBytes⟩
  rw [bytesToHex_length, h16]

/-- Witness for C2: 16 concrete random bytes hex-encode to a
32-character salt. -/
theorem hash_password_spec_witness : (bytesToHex (List.range 16)).length = 32 :=
  (hash_password_spec (fun _ _ => []) (List.range 16) [] [] (by decide)).2.2.1

/-- C3: for every password and every stored string that does not contain
exactly one `$` (so `split('$')` does not yield exactly two parts),
`verify_password` returns `false`; it is a total function, so it never
raises. -/
theorem verify_password_malformed (pbkdf2 : Pbkdf2) (password stored : List Char)
    (h : stored.count '$' ≠ 1) :
    verify_password pbkdf2 password stored = false :=
  verify_false_of_count_ne_one pbkdf2 password stored h

/-- Witness for C3: a stored value with no `$` and one with two `$` both
fail verification. -/
theorem verify_password_malformed_witness :
    verify_password (fun _ _ => []) "pw".toList "not-a-valid-format".toList = false ∧
    verify_password (fun _ _ => []) "pw".toList "a$b$c".toList = false :=
  ⟨verify_password_malformed (fun _ _ => []) "pw".toList "not-a-valid-format".toList
     (by decide),
   verify_password_malformed (fun _ _ => []) "pw".toList "a$b$c".toList (by decide)⟩

/-- C4: if an account with the requested email already exists, register
fails with the duplicate-email error (HTTP 400, detail "Email already
registered") and leaves the store — in particular the existing
account's token list and every other field — unchanged. -/
theorem register_duplicate_email (pbkdf2 : Pbkdf2) (saltBytes tokenBytes : List Nat)
    (now : Nat) (db : DB) (name email password : List Char) (u : UserDoc)
    (h : find_by_email db.users email = some u) :
    register pbkdf2 saltBytes tokenBytes now db name email password
      = (.error .duplicateEmail, db) ∧
    ApiError.status .duplicateEmail = 400 ∧
    ApiError.message .duplicateEmail = "Email already registered".toList := by
  refine ⟨?_, rfl, rfl⟩
  unfold register
  rw [h]

/-- Witness for C4: registering an email that is already present fails
and does not change the store. -/
theorem register_duplicate_email_witness :
    register (fun _ _ => []) [] [] 5
      ⟨[⟨0, some "Alice".toList, some "a@b.c".toList, none, ["t0".toList], none⟩], 1⟩
      "Bob".toList "a@b.c".toList "pw".toList
      = (.error .duplicateEmail,
         ⟨[⟨0, some "Alice".toList, some "a@b.c".toList, none, ["t0".toList], none⟩], 1⟩) :=
  (register_duplicate_email (fun _ _ => []) [] [] 5
    ⟨[⟨0, some "Alice".toList, some "a@b.c".toList, none, ["t0".toList], none⟩], 1⟩
    "Bob".toList "a@b.c".toList "pw".toList
    ⟨0, some "Alice".toList, some "a@b.c".toList, none, ["t0".toList], none⟩
    (by decide)).1

/-- C5: on successful registration the Account persisted by the creation
step carries the given name, email, the computed credential hash, an
empty session-token list, and the server-assigned creation timestamp;
the register operation then appends the fresh session token to exactly
that document. -/
theorem register_persists_new_account (pbkdf2 : Pbkdf2) (saltBytes tokenBytes : List Nat)
    (now : Nat) (db : DB) (name email password : List Char)
    (hNoDup : find_by_email db.users email = none)
    (hFresh : ∀ u ∈ db.users, u._id ≠ db.nextId) :
    (create_document db now name email (hash_password pbkdf2 saltBytes password none)).2.users
      = db.users ++ [⟨db.nextId, some name, some email,
          some (hash_password pbkdf2 saltBytes password none), [], some now⟩] ∧
    register pbkdf2 saltBytes tokenBytes now db name email password
      = (.ok ⟨token_urlsafe tokenBytes, name, email⟩,
         ⟨db.users ++ [⟨db.nextId, some name, some email,
            some (hash_password pbkdf2 saltBytes password none),
            [token_urlsafe tokenBytes], some now⟩],
          db.nextId + 1⟩) := by
  refine ⟨rfl, ?_⟩
  unfold register
  rw [hNoDup]
  simp only [create_document]
  rw [find_by_email_insert db.users email
      ⟨db.nextId, some name, some email,
        some (hash_password pbkdf2 saltBytes password none), [], some now⟩ hNoDup rfl]
  simp only []
  rw [find_by_id_insert db.users db.nextId
      ⟨db.nextId, some name, some email,
        some (hash_password pbkdf2 saltBytes password none), [], some now⟩ hFresh rfl]
  simp only []
  rw [pushToken_append_of_fresh db.users _ db.nextId (token_urlsafe tokenBytes) hFresh]
  simp [pushToken]

/-- Witness for C5: registering into an empty store persists the new
account with its fields and appends the fresh token. -/
theorem register_persists_new_account_witness :
    register (fun _ _ => [0]) [1] [2] 7 ⟨[], 0⟩
      "Alice".toList "alice@example.com".toList "secret123".toList
      = (.ok ⟨token_urlsafe [2], "Alice".toList, "alice@example.com".toList⟩,
         ⟨[⟨0, some "Alice".toList, some "alice@example.com".toList,
            some (hash_password (fun _ _ => [0]) [1] "secret123".toList none),
            [token_urlsafe [2]], some 7⟩], 1⟩) :=
  (register_persists_new_account (fun _ _ => [0]) [1] [2] 7 ⟨[], 0⟩
    "Alice".toList "alice@example.com".toList "secret123".toList
    (by decide) (by decide)).2

lemma pushToken_eq_map (l : List UserDoc) (i : Nat) (tok : List Char)
    (hnodup : (l.map (fun v => v._id)).Nodup) :
    pushToken l i tok
      = l.map (fun v => if v._id = i
          then { v with session_tokens := v.session_tokens ++ [tok] } else v) := by
  induction l with
  | nil => rfl
  | cons u t ih =>
    simp only [List.map_cons, List.nodup_cons] at hnodup
    by_cases hu : u._id = i
    · simp only [pushToken, if_pos hu, List.map_cons]
      have hother : ∀ v ∈ t,
          (if v._id = i
            then { v with session_tokens := v.session_tokens ++ [tok] } else v) = v := by
        intro v hv
        have hne : v._id ≠ i := by
          intro he
          exact hnodup.1 (List.mem_map.mpr ⟨v, hv, by rw [he, hu]⟩)
        rw [if_neg hne]
      rw [List.map_congr_left hother]
      simp
    · simp only [pushToken, if_neg hu, List.map_cons]
      rw [ih hnodup.2]

/-- C6: login fails with the undifferentiated invalid-credentials error
(HTTP 401) both when no account has the given email and when password
verification against the stored hash fails; in either case the store —
in particular the account's token list — is unchanged. -/
theorem login_invalid_credentials (pbkdf2 : Pbkdf2) (tokenBytes : List Nat)
    (db : DB) (email password : List Char)
    (h : find_by_email db.users email = none ∨
         ∃ u, find_by_email db.users email = some u ∧
           verify_password pbkdf2 password (u.password_hash.getD []) = false) :
    login pbkdf2 tokenBytes db email password = (.error .invalidCredentials, db) ∧
    ApiError.status .invalidCredentials = 401 ∧
    ApiError.message .invalidCredentials = "Invalid credentials".toList := by
  refine ⟨?_, rfl, rfl⟩
  unfold login
  rcases h with h | ⟨u, hu, hv⟩
  · rw [h]
  · rw [hu]
    simp [hv]

/-- Witness for C6: logging in against an empty store and logging in
with a wrong password against a stored account both fail identically. -/
theorem login_invalid_credentials_witness :
    login (fun _ _ => [1]) [2] ⟨[], 0⟩ "a@b.c".toList "pw".toList
      = (.error .invalidCredentials, ⟨[], 0⟩) ∧
    login (fun _ _ => [1]) [2]
      ⟨[⟨0, some "Alice".toList, some "a@b.c".toList, some "s$00".toList, [], none⟩], 1⟩
      "a@b.c".toList "wrong".toList
      = (.error .invalidCredentials,
         ⟨[⟨0, some "Alice".toList, some "a@b.c".toList, some "s$00".toList, [], none⟩], 1⟩) :=
  ⟨(login_invalid_credentials (fun _ _ => [1]) [2] ⟨[], 0⟩ "a@b.c".toList "pw".toList
      (Or.inl (by decide))).1,
   (login_invalid_credentials (fun _ _ => [1]) [2]
      ⟨[⟨0, some "Alice".toList, some "a@b.c".toList, some "s$00".toList, [], none⟩], 1⟩
      "a@b.c".toList "wrong".toList
      (Or.inr ⟨⟨0, some "Alice".toList, some "a@b.c".toList, some "s$00".toList, [], none⟩,
        by decide, by decide⟩)).1⟩

/-- C7: on successful login a freshly issued session token is appended
to the matched account's token list, previously issued tokens are kept,
every other account is untouched, and the operation returns the
AuthResult with token, name and email. -/
theorem login_success_appends_token (pbkdf2 : Pbkdf2) (tokenBytes : List Nat)
    (db : DB) (email password : List Char) (u : UserDoc)
    (hfind : find_by_email db.users email = some u)
    (hver : verify_password pbkdf2 password (u.password_hash.getD []) = true)
    (hnodup : (db.users.map (fun v => v._id)).Nodup) :
    login pbkdf2 tokenBytes db email password
      = (.ok ⟨token_urlsafe tokenBytes, u.name.getD [], u.email.getD []⟩,
         ⟨db.users.map (fun v => if v._id = u._id
             then { v with session_tokens := v.session_tokens ++ [token_urlsafe tokenBytes] }
             else v),
          db.nextId⟩) := by
  unfold login
  rw [hfind]
  simp only [hver, if_true]
  rw [pushToken_eq_map db.users u._id (token_urlsafe tokenBytes) hnodup]

/-- Witness for C7: a successful login against a one-account store
appends the new token after the existing one. -/
theorem login_success_appends_token_witness :
    login (fun _ _ => [0]) [2]
      ⟨[⟨0, some "Alice".toList, some "a@b.c".toList, some "s$00".toList,
         ["t0".toList], none⟩], 1⟩
      "a@b.c".toList "secret123".toList
      = (.ok ⟨token_urlsafe [2], "Alice".toList, "a@b.c".toList⟩,
         ⟨[⟨0, some "Alice".toList, some "a@b.c".toList, some "s$00".toList,
            ["t0".toList, token_urlsafe [2]], none⟩], 1⟩) := by
  have h := login_success_appends_token (fun _ _ => [0]) [2]
    ⟨[⟨0, some "Alice".toList, some "a@b.c".toList, some "s$00".toList,
       ["t0".toList], none⟩], 1⟩
    "a@b.c".toList "secret123".toList
    ⟨0, some "Alice".toList, some "a@b.c".toList, some "s$00".toList,
      ["t0".toList], none⟩
    (by decide) (by decide) (by decide)
  simpa using h

/-- C8: tokens issued by register and login are
`secrets.token_urlsafe(32)` values: computed from 32 random bytes, they
are 43 URL-safe characters long, in particular at least 32 characters;
any successful register or login returns exactly such a token. -/
theorem session_token_spec (pbkdf2 : Pbkdf2) (saltBytes tokenBytes : List Nat)
    (now : Nat) (db : DB) (name email password : List Char)
    (h32 : tokenBytes.length = 32) :
    (token_urlsafe tokenBytes).length = 43 ∧
    32 ≤ (token_urlsafe tokenBytes).length ∧
    (∀ c ∈ token_urlsafe tokenBytes, isUrlSafeChar c = true) ∧
    (∀ resp db2, register pbkdf2 saltBytes tokenBytes now db name email password
        = (.ok resp, db2) → resp.token = token_urlsafe tokenBytes) ∧
    (∀ resp db2, login pbkdf2 tokenBytes db email password
        = (.ok resp, db2) → resp.token = token_urlsafe tokenBytes) := by
  have hlen : (token_urlsafe tokenBytes).length = 43 := by
    unfold token_urlsafe
    rw [base64urlNoPad_length, h32]
    decide
  refine ⟨hlen, by omega, base64urlNoPad_all_urlsafe tokenBytes, ?_, ?_⟩
  · intro resp db2 h
    unfold register at h
    split at h
    · exact absurd (congrArg Prod.fst h) (by simp)
    · dsimp only at h
      split at h
      · exact absurd (congrArg Prod.fst h) (by simp)
      · split at h
        · exact absurd (congrArg Prod.fst h) (by simp)
        · have h1 := Except.ok.inj (congrArg Prod.fst h)
          rw [← h1]
  · intro resp db2 h
    unfold login at h
    split at h
    · exact absurd (congrArg Prod.fst h) (by simp)
    · split at h
      · have h1 := Except.ok.inj (congrArg Prod.fst h)
        rw [← h1]
      · exact absurd (congrArg Prod.fst h) (by simp)

/-- Witness for C8: a concrete 32-byte token has 43 URL-safe characters. -/
theorem session_token_spec_witness : (token_urlsafe (List.range 32)).length = 43 :=
  (session_token_spec (fun _ _ => []) [] (List.range 32) 0 ⟨[], 0⟩ [] [] []
    (by decide)).1

/-- C9: when emails are unique in the store and the store-generated id
is fresh, attaching the session token through the re-query chain of
line 131 is equivalent to attaching it to the account just created
using the id returned from the creation step: register and its
spec-side variant agree on every input. -/
theorem register_requery_equiv (pbkdf2 : Pbkdf2) (saltBytes tokenBytes : List Nat)
    (now : Nat) (db : DB) (name email password : List Char)
    (hUniq : (db.users.map (fun u => u.email)).Nodup)
    (hFresh : ∀ u ∈ db.users, u._id ≠ db.nextId) :
    register pbkdf2 saltBytes tokenBytes now db name email password
      = register_spec pbkdf2 saltBytes tokenBytes now db name email password := by
  unfold register register_spec
  rcases hfe : find_by_email db.users email with _ | u0
  · simp only [create_document]
    rw [find_by_email_insert db.users email
        ⟨db.nextId, some name, some email,
          some (hash_password pbkdf2 saltBytes password none), [], some now⟩ hfe rfl]
    simp only []
    rw [find_by_id_insert db.users db.nextId
        ⟨db.nextId, some name, some email,
          some (hash_password pbkdf2 saltBytes password none), [], some now⟩ hFresh rfl]
  · rfl

/-- Witness for C9: on a concrete one-account store with a fresh email,
the re-query chain and the direct-id attach produce the same result. -/
theorem register_requery_equiv_witness :
    register (fun _ _ => [3]) [1] [2] 9
      ⟨[⟨0, some "Bob".toList, some "b@b.c".toList, none, [], none⟩], 1⟩
      "Alice".toList "alice@example.com".toList "secret123".toList
      = register_spec (fun _ _ => [3]) [1] [2] 9
        ⟨[⟨0, some "Bob".toList, some "b@b.c".toList, none, [], none⟩], 1⟩
        "Alice".toList "alice@example.com".toList "secret123".toList :=
  register_requery_equiv (fun _ _ => [3]) [1] [2] 9
    ⟨[⟨0, some "Bob".toList, some "b@b.c".toList, none, [], none⟩], 1⟩
    "Alice".toList "alice@example.com".toList "secret123".toList
    (by decide) (by decide)

/-- C10: a login that matches an account whose record lacks a
`password_hash` field (defaulted to the empty string) or whose stored
hash is not a well-formed two-part salt$hash string fails with
invalid-credentials instead of raising. -/
theorem login_missing_or_malformed_hash (pbkdf2 : Pbkdf2) (tokenBytes : List Nat)
    (db : DB) (email password : List Char) (u : UserDoc)
    (hfind : find_by_email db.users email = some u)
    (hbad : u.password_hash = none ∨
            ∃ s, u.password_hash = some s ∧ s.count '$' ≠ 1) :
    verify_password pbkdf2 password (u.password_hash.getD []) = false ∧
    login pbkdf2 tokenBytes db email password = (.error .invalidCredentials, db) := by
  have hcount : (u.password_hash.getD []).count '$' ≠ 1 := by
    rcases hbad with h | ⟨s, hs, hc⟩
    · rw [h]; simp
    · rw [hs]; simpa using hc
  have hv := verify_false_of_count_ne_one pbkdf2 password _ hcount
  refine ⟨hv, ?_⟩
  unfold login
  rw [hfind]
  simp [hv]

/-- Witness for C10: logging in against an account with no
`password_hash` field fails with invalid credentials. -/
theorem login_missing_or_malformed_hash_witness :
    login (fun _ _ => [1]) [2]
      ⟨[⟨0, some "Alice".toList, some "a@b.c".toList, none, [], none⟩], 1⟩
      "a@b.c".toList "pw".toList
      = (.error .invalidCredentials,
         ⟨[⟨0, some "Alice".toList, some "a@b.c".toList, none, [], none⟩], 1⟩) :=
  (login_missing_or_malformed_hash (fun _ _ => [1]) [2]
    ⟨[⟨0, some "Alice".toList, some "a@b.c".toList, none, [], none⟩], 1⟩
    "a@b.c".toList "pw".toList
    ⟨0, some "Alice".toList, some "a@b.c".toList, none, [], none⟩
    (by decide) (Or.inl rfl)).2
